import Mathlib

/-!
Chat Organizer: folder and assignment persistence.

A shallow embedding of the storage logic of the browser extension
(`src/popup.js`, `src/content.js`): the two persisted collections, the
operations that read and rewrite them, and the per-folder chat counts that
the three views derive from them.

Conventions of the embedding

* JavaScript strings are Lean strings.  `String.prototype.trim` and
  `String.prototype.toLowerCase` are library functions of the host; they are
  taken as the two fields of `StringOps`, so the theorems hold for whatever
  these two functions compute; a property of them that a theorem needs is a
  hypothesis of that theorem.
* `Date.now()` is a natural number handed to the operation; the random part of
  a folder id, `Math.random().toString(36).substr(2, 9)`, is a string handed to
  the operation (floating point is not modelled).
* `chrome.storage.local` is a record with one optional value per key; a call
  to `get` or `set` may be rejected, which `StoreAvail` decides.  A run lists
  the store calls issued before the operation settles, the read of the redraw
  it starts included.
* The assignments object is a plain object: a write to the name `__proto__`
  reaches the accessor of `Object.prototype` and creates no own property.
* `confirm(...)` is a Boolean handed to the operation.
* `btoa` is the base64 encoding of a string of character codes below 256; on
  any other string it throws, which is the value `none`.
-/

namespace ChatOrganizer

/-! ## Data model -/

/-- Storage key of the folder sequence (`FOLDERS_KEY`). -/
def FOLDERS_KEY : String := "chat_folders"

/-- Storage key of the assignments mapping (`CHAT_ASSIGNMENTS_KEY`). -/
def CHAT_ASSIGNMENTS_KEY : String := "chat_assignments"

/-- One element of `chat_folders`: the object literal built in `createFolder`. -/
structure Folder where
  id : String
  name : String
  createdAt : Nat
deriving DecidableEq, Repr

/-- One value of `chat_assignments`: either a bare folder-id string (the older
format) or the object literal written by `assignChatToFolder`. -/
inductive AssignmentValue where
  | bare (folderId : String)
  | structured (folderId : String) (name : String) (timestamp : Nat)
deriving DecidableEq, Repr

/-- The assignments object, as the list `Object.entries` enumerates.  Keys are
own enumerable property names; in an object they are pairwise distinct, which
`WellFormed` records.  The name `__proto__` is no key of a stored object: no
property write creates it (see `setProperty`).  A new key is enumerated last
(the position that JavaScript gives to integer-like keys is not modelled;
statements about single keys go through `getProperty`). -/
abbrev Assignments := List (String × AssignmentValue)

/-- Keys of the assignments object (`Object.keys`). -/
def keys (m : Assignments) : List String := m.map Prod.fst

/-- An entries list that comes from an object: no key occurs twice. -/
def WellFormed (m : Assignments) : Prop := (keys m).Nodup

instance (m : Assignments) : Decidable (WellFormed m) :=
  inferInstanceAs (Decidable (keys m).Nodup)

/-- Property read `assignments[chatId]`; `none` is `undefined`. -/
def getProperty (m : Assignments) (chatId : String) : Option AssignmentValue :=
  List.lookup chatId m

/-- Write of an own data property: an existing key keeps its place and gets
the new value, a new key is added at the end. -/
def putOwnProperty : Assignments → String → AssignmentValue → Assignments
  | [], chatId, value => [(chatId, value)]
  | (k, v) :: rest, chatId, value =>
    if k = chatId then (chatId, value) :: rest
    else (k, v) :: putOwnProperty rest chatId value

/-- Property write `assignments[chatId] = value` on a plain object.  For the
name `__proto__`, when it is no own key, the write goes to the accessor of
`Object.prototype`: it changes the prototype (for an object value) or nothing
(for a string), and the own properties, which are what the store persists,
stay as they are.  Every other write is a write of an own data property. -/
def setProperty (m : Assignments) (chatId : String) (value : AssignmentValue) : Assignments :=
  if chatId = "__proto__" ∧ chatId ∉ keys m then m
  else putOwnProperty m chatId value

/-- Property removal `delete assignments[chatId]`. -/
def deleteProperty (m : Assignments) (chatId : String) : Assignments :=
  m.filter (fun e => e.1 != chatId)

/-! ## JavaScript expressions used on assignment values -/

/-- The test `typeof data === 'object'`. -/
def typeofObject : AssignmentValue → Bool
  | .bare _ => false
  | .structured _ _ _ => true

/-- The property read `data.folderId`; on a string primitive it is `undefined`
(`none`). -/
def folderIdProperty : AssignmentValue → Option String
  | .bare _ => none
  | .structured folderId _ _ => some folderId

/-- Strict equality `value === folderId` against a string: a string equals it
when the characters agree, an object never does. -/
def strictEq : AssignmentValue → String → Bool
  | .bare s, folderId => s == folderId
  | .structured _ _ _, _ => false

/-- The filter predicate of the panel and of the sidebar:
`(typeof data === 'object' ? data.folderId : data) === folder.id`. -/
def matchesFolder (data : AssignmentValue) (folderId : String) : Bool :=
  if typeofObject data then folderIdProperty data == some folderId
  else strictEq data folderId

/-! ## Host string functions -/

/-- The two host string functions the popup uses. -/
structure StringOps where
  trim : String → String
  toLowerCase : String → String

/-- Removal of leading and trailing ASCII white space. -/
def asciiTrim (s : String) : String :=
  String.mk (((s.data.dropWhile Char.isWhitespace).reverse.dropWhile Char.isWhitespace).reverse)

/-- Lower-casing of the letters `A` to `Z`. -/
def asciiLower (s : String) : String :=
  String.mk (s.data.map Char.toLower)

/-- The host functions restricted to ASCII, used to run the model on concrete
inputs. -/
def asciiOps : StringOps := ⟨asciiTrim, asciiLower⟩

/-! ## The store -/

/-- Contents of `chrome.storage.local`: each key is absent (`none`) or holds a
value. -/
structure Store where
  chat_folders : Option (List Folder)
  chat_assignments : Option Assignments
deriving DecidableEq, Repr

/-- The store before anything was written. -/
def Store.empty : Store := ⟨none, none⟩

/-- The folder sequence an operation reads: `result[FOLDERS_KEY] || []`. -/
def Store.folders (s : Store) : List Folder := s.chat_folders.getD []

/-- The assignments mapping an operation reads:
`result[CHAT_ASSIGNMENTS_KEY] || {}`. -/
def Store.assignments (s : Store) : Assignments := s.chat_assignments.getD []

/-- A call made to `chrome.storage.local`, with the keys it names.  `redraw`
stands for the reads `get([chat_folders, chat_assignments])` that
`loadPanelContent()` and `injectFoldersIntoSidebar()` issue when the content
script redraws after a change; how many of the two reads are reached depends
on the page, which is not modelled. -/
inductive StoreCall where
  | get (storeKeys : List String)
  | set (storeKeys : List String)
  | redraw
deriving DecidableEq, Repr

/-- Whether the `get` and the `set` of one operation resolve (`true`) or are
rejected (`false`). -/
structure StoreAvail where
  getOk : Bool
  setOk : Bool
deriving DecidableEq, Repr

/-- A store whose calls all resolve. -/
def StoreAvail.up : StoreAvail := ⟨true, true⟩

/-- How one operation ends.  `validationAlert`, `duplicateAlert` and
`failureAlert` are the three `alert` branches of the popup; `cancelled` is a
declined `confirm`; `rejected` is an `async` function of the content script
whose promise is rejected because a store call was. -/
inductive Outcome where
  | validationAlert
  | duplicateAlert
  | cancelled
  | completed
  | failureAlert
  | rejected
deriving DecidableEq, Repr

/-- Result of running one operation: how it ended, the store afterwards and
the store calls it made, in order. -/
structure Run where
  outcome : Outcome
  store : Store
  calls : List StoreCall
deriving DecidableEq, Repr

/-! ## popup.js -/

/-- Function `generateId`: the text `folder_`, the clock value in decimal, an
underscore and the random suffix. -/
def generateId (now : Nat) (rand : String) : String :=
  "folder_" ++ toString now ++ "_" ++ rand

/-- Function `createFolder` of the popup.  `input` is the value of the text
field, `nowId` and `rand` are what `generateId` obtains from the clock and the
random source, `nowCreated` is the later clock value stored as `createdAt`.
After the write the function calls `loadFolders()`, whose first statement reads
both keys; that read is the last call of a completed run. -/
def createFolder (js : StringOps) (avail : StoreAvail) (input : String)
    (nowId : Nat) (rand : String) (nowCreated : Nat) (s : Store) : Run :=
  let name := js.trim input
  if name = "" then
    ⟨.validationAlert, s, []⟩
  else if !avail.getOk then
    ⟨.failureAlert, s, [.get [FOLDERS_KEY]]⟩
  else
    let folders := s.folders
    if folders.any (fun f => js.toLowerCase f.name == js.toLowerCase name) then
      ⟨.duplicateAlert, s, [.get [FOLDERS_KEY]]⟩
    else
      let newFolder : Folder := { id := generateId nowId rand, name := name, createdAt := nowCreated }
      let folders := folders ++ [newFolder]
      if !avail.setOk then
        ⟨.failureAlert, s, [.get [FOLDERS_KEY], .set [FOLDERS_KEY]]⟩
      else
        ⟨.completed, { s with chat_folders := some folders },
          [.get [FOLDERS_KEY], .set [FOLDERS_KEY],
            .get [FOLDERS_KEY, CHAT_ASSIGNMENTS_KEY]]⟩

/-- The loop of `deleteFolder` that builds `updatedAssignments`: every entry
whose value is `!== folderId` is written into a fresh object.  The names
written are the own keys of the stored object, so every write is the write of
an own data property. -/
def pruneAssignments (assignments : Assignments) (folderId : String) : Assignments :=
  assignments.foldl
    (fun updated entry =>
      if !strictEq entry.2 folderId then putOwnProperty updated entry.1 entry.2 else updated)
    []

/-- Function `deleteFolder` of the popup; `confirmed` is the answer to
`confirm(...)`.  After the write the function calls `loadFolders()`, whose
read of both keys is the last call of a completed run. -/
def deleteFolder (avail : StoreAvail) (confirmed : Bool) (folderId : String)
    (s : Store) : Run :=
  if !confirmed then
    ⟨.cancelled, s, []⟩
  else if !avail.getOk then
    ⟨.failureAlert, s, [.get [FOLDERS_KEY, CHAT_ASSIGNMENTS_KEY]]⟩
  else
    let folders := s.folders
    let assignments := s.assignments
    let updatedFolders := folders.filter (fun f => f.id != folderId)
    let updatedAssignments := pruneAssignments assignments folderId
    if !avail.setOk then
      ⟨.failureAlert, s,
        [.get [FOLDERS_KEY, CHAT_ASSIGNMENTS_KEY], .set [FOLDERS_KEY, CHAT_ASSIGNMENTS_KEY]]⟩
    else
      ⟨.completed, ⟨some updatedFolders, some updatedAssignments⟩,
        [.get [FOLDERS_KEY, CHAT_ASSIGNMENTS_KEY], .set [FOLDERS_KEY, CHAT_ASSIGNMENTS_KEY],
          .get [FOLDERS_KEY, CHAT_ASSIGNMENTS_KEY]]⟩

/-- The chat count of `loadFolders` in the popup:
`Object.values(assignments).filter(f => f === folder.id).length`. -/
def popupChatCount (assignments : Assignments) (folder : Folder) : Nat :=
  ((assignments.map Prod.snd).filter (fun f => strictEq f folder.id)).length

/-! ## content.js -/

/-- Function `assignChatToFolder` of the content script.  A non-empty
`folderId` writes the structured record, an empty one deletes the key.  The
function itself does not redraw; its callers do. -/
def assignChatToFolder (avail : StoreAvail) (chatId folderId chatName : String)
    (now : Nat) (s : Store) : Run :=
  if !avail.getOk then
    ⟨.rejected, s, [.get [CHAT_ASSIGNMENTS_KEY]]⟩
  else
    let assignments := s.assignments
    let assignments :=
      if folderId ≠ "" then
        setProperty assignments chatId
          (.structured folderId (if chatName ≠ "" then chatName else chatId) now)
      else deleteProperty assignments chatId
    if !avail.setOk then
      ⟨.rejected, s, [.get [CHAT_ASSIGNMENTS_KEY], .set [CHAT_ASSIGNMENTS_KEY]]⟩
    else
      ⟨.completed, { s with chat_assignments := some assignments },
        [.get [CHAT_ASSIGNMENTS_KEY], .set [CHAT_ASSIGNMENTS_KEY]]⟩

/-- Function `window.removeChatFromFolder` of the content script; `confirmed`
is the answer to `confirm(...)`.  After the write the function redraws the
panel and the sidebar. -/
def removeChatFromFolder (avail : StoreAvail) (confirmed : Bool) (chatId : String)
    (s : Store) : Run :=
  if !confirmed then
    ⟨.cancelled, s, []⟩
  else if !avail.getOk then
    ⟨.rejected, s, [.get [CHAT_ASSIGNMENTS_KEY]]⟩
  else
    let assignments := deleteProperty s.assignments chatId
    if !avail.setOk then
      ⟨.rejected, s, [.get [CHAT_ASSIGNMENTS_KEY], .set [CHAT_ASSIGNMENTS_KEY]]⟩
    else
      ⟨.completed, { s with chat_assignments := some assignments },
        [.get [CHAT_ASSIGNMENTS_KEY], .set [CHAT_ASSIGNMENTS_KEY], .redraw]⟩

/-- The entries `folderChats` that `loadPanelContent` lists under a folder. -/
def panelFolderChats (assignments : Assignments) (folder : Folder) : Assignments :=
  assignments.filter (fun entry => matchesFolder entry.2 folder.id)

/-- The `chatCount` of `loadPanelContent`. -/
def panelChatCount (assignments : Assignments) (folder : Folder) : Nat :=
  (panelFolderChats assignments folder).length

/-- The entries `folderChats` that `updateSidebarFolders` lists under a folder. -/
def sidebarFolderChats (assignments : Assignments) (folder : Folder) : Assignments :=
  assignments.filter (fun entry => matchesFolder entry.2 folder.id)

/-- The `chatCount` of `updateSidebarFolders`. -/
def sidebarChatCount (assignments : Assignments) (folder : Folder) : Nat :=
  (sidebarFolderChats assignments folder).length

/-! ## The save handler of the panel -/

/-- The 64 characters of the base64 alphabet, in the order of their values. -/
def base64Alphabet : List Char :=
  "ABCDEFGHIJKLMNOPQRSTUVWXYZabcdefghijklmnopqrstuvwxyz0123456789+/".data

/-- The base64 character of a six-bit value. -/
def base64Char (n : Nat) : Char := base64Alphabet.getD n '='

/-- Base64 encoding of a list of bytes: three bytes give four characters, a
final group of one or two bytes is padded with `=`. -/
def base64Encode : List Nat → List Char
  | [] => []
  | [a] => [base64Char (a / 4), base64Char (a % 4 * 16), '=', '=']
  | [a, b] =>
    [base64Char (a / 4), base64Char (a % 4 * 16 + b / 16), base64Char (b % 16 * 4), '=']
  | a :: b :: c :: rest =>
    base64Char (a / 4) :: base64Char (a % 4 * 16 + b / 16) ::
      base64Char (b % 16 * 4 + c / 64) :: base64Char (c % 64) :: base64Encode rest

/-- The host function `btoa`: the base64 encoding of a string whose characters
all have a code below 256; on any other string it throws (`none`). -/
def btoa (text : String) : Option String :=
  if text.data.all (fun c => c.toNat < 256) then
    some (String.mk (base64Encode (text.data.map Char.toNat)))
  else none

/-- The chat id the panel derives from an encoded chat name:
`'manual_' + encoded.replace(/[^a-zA-Z0-9]/g, '').substring(0, 20)`. -/
def manualChatId (encoded : String) : String :=
  "manual_" ++ String.mk ((encoded.data.filter Char.isAlphanum).take 20)

/-- The click handler of the button `save-to-folder-btn` in `loadPanelContent`.
`chatNameValue` is the value of the text field, `selectedFolderId` the value of
the folder selector.  A `btoa` that throws ends the handler with a rejected
promise before any store call; a rejected `assignChatToFolder` ends it the same
way; after a completed one the handler redraws the panel and the sidebar. -/
def saveToFolder (js : StringOps) (avail : StoreAvail) (chatNameValue selectedFolderId : String)
    (now : Nat) (s : Store) : Run :=
  let chatName := js.trim chatNameValue
  if chatName = "" then
    ⟨.validationAlert, s, []⟩
  else if selectedFolderId = "" then
    ⟨.validationAlert, s, []⟩
  else
    match btoa chatName with
    | none => ⟨.rejected, s, []⟩
    | some encoded =>
      let run := assignChatToFolder avail (manualChatId encoded) selectedFolderId chatName now s
      if run.outcome = .completed then { run with calls := run.calls ++ [.redraw] }
      else run

/-! ## Notions used to state the properties -/

/-- Folder id an assignment value refers to, whatever its shape: the string
itself for the bare form, the field `folderId` for the structured form. -/
def normalisedFolderId : AssignmentValue → String
  | .bare folderId => folderId
  | .structured folderId _ _ => folderId

/-- Ids of the folders currently in the folder sequence. -/
def liveIds (s : Store) : List String := s.folders.map Folder.id

/-- Every assignment refers to a folder that is in the folder sequence. -/
def NoDangling (s : Store) : Prop :=
  ∀ e ∈ s.assignments, normalisedFolderId e.2 ∈ liveIds s

instance (s : Store) : Decidable (NoDangling s) :=
  inferInstanceAs (Decidable (∀ e ∈ s.assignments, normalisedFolderId e.2 ∈ liveIds s))

/-- No two folders of the sequence have names that are equal after
lower-casing. -/
def NamesDistinct (js : StringOps) (s : Store) : Prop :=
  s.folders.Pairwise (fun a b => js.toLowerCase a.name ≠ js.toLowerCase b.name)

/-- Number of chat ids of the mapping whose normalised folder id is
`folderId`. -/
def chatsInFolder (m : Assignments) (folderId : String) : Nat :=
  ((keys m).filter
    (fun chatId => (getProperty m chatId).map normalisedFolderId == some folderId)).length

/-- One user action on a working store: a folder creation, a confirmed folder
deletion, an assignment to a folder taken from the live folder list, or a
confirmed removal of a chat from its folder. -/
inductive Step (js : StringOps) : Store → Store → Prop where
  | create (s : Store) (input : String) (nowId : Nat) (rand : String) (nowCreated : Nat) :
      Step js s (createFolder js .up input nowId rand nowCreated s).store
  | delete (s : Store) (folderId : String) :
      Step js s (deleteFolder .up true folderId s).store
  | assign (s : Store) (chatId folderId chatName : String) (now : Nat)
      (hlive : folderId ∈ liveIds s) :
      Step js s (assignChatToFolder .up chatId folderId chatName now s).store
  | unassign (s : Store) (chatId : String) :
      Step js s (removeChatFromFolder .up true chatId s).store

/-- States reached from the empty store by a sequence of user actions. -/
inductive Reachable (js : StringOps) : Store → Prop where
  | empty : Reachable js Store.empty
  | step {s t : Store} : Reachable js s → Step js s t → Reachable js t

/-- Value of a decimal digit character. -/
def digitValue (c : Char) : Nat := c.toNat - 48

/-- Number read back from a list of decimal digit characters, continuing from
`acc`. -/
def readDecimal (acc : Nat) (cs : List Char) : Nat :=
  cs.foldl (fun a c => 10 * a + digitValue c) acc

/-! ## Lemmas on the assignments object -/

theorem matchesFolder_iff (data : AssignmentValue) (folderId : String) :
    matchesFolder data folderId = true ↔ normalisedFolderId data = folderId := by
  cases data <;> simp [matchesFolder, typeofObject, folderIdProperty, strictEq, normalisedFolderId]

theorem putOwnProperty_of_not_mem (m : Assignments) (k : String) (v : AssignmentValue)
    (h : k ∉ keys m) : putOwnProperty m k v = m ++ [(k, v)] := by
  induction m with
  | nil => rfl
  | cons e rest ih =>
    obtain ⟨k0, v0⟩ := e
    simp only [keys, List.map_cons, List.mem_cons, not_or] at h
    have hne : k0 ≠ k := fun hk => h.1 hk.symm
    simp [putOwnProperty, hne, ih (by simpa [keys] using h.2)]

theorem setProperty_of_ne (m : Assignments) (k : String) (v : AssignmentValue)
    (hk : k ≠ "__proto__") : setProperty m k v = putOwnProperty m k v := by
  simp [setProperty, hk]

theorem setProperty_of_mem (m : Assignments) (k : String) (v : AssignmentValue)
    (hk : k ∈ keys m) : setProperty m k v = putOwnProperty m k v := by
  simp [setProperty, hk]

theorem setProperty_proto (m : Assignments) (v : AssignmentValue)
    (hk : "__proto__" ∉ keys m) : setProperty m "__proto__" v = m := by
  simp [setProperty, hk]

theorem pruneAssignments_foldl (l acc : Assignments) (folderId : String)
    (hl : (keys l).Nodup) (hdisj : ∀ k ∈ keys l, k ∉ keys acc) :
    l.foldl (fun updated entry =>
        if !strictEq entry.2 folderId then putOwnProperty updated entry.1 entry.2 else updated) acc
      = acc ++ l.filter (fun e => !strictEq e.2 folderId) := by
  induction l generalizing acc with
  | nil => simp
  | cons e rest ih =>
    obtain ⟨k0, v0⟩ := e
    simp only [keys, List.map_cons, List.nodup_cons] at hl
    have hk0 : k0 ∉ keys acc := hdisj k0 (by simp [keys])
    by_cases hv : strictEq v0 folderId = true
    · simp only [List.foldl_cons, hv, Bool.not_true, Bool.false_eq_true, if_false]
      rw [ih acc hl.2 (fun k hk => hdisj k (by simp only [keys, List.map_cons, List.mem_cons]; exact Or.inr hk))]
      simp [List.filter_cons, hv]
    · simp only [Bool.not_eq_true] at hv
      simp only [List.foldl_cons, hv, Bool.not_false, if_true]
      rw [putOwnProperty_of_not_mem acc k0 v0 hk0]
      rw [ih (acc ++ [(k0, v0)]) hl.2]
      · simp [List.filter_cons, hv]
      · intro k hk hmem
        simp only [keys, List.map_append, List.map_cons, List.map_nil, List.mem_append,
          List.mem_singleton] at hmem
        rcases hmem with hmem | hmem
        · exact hdisj k (by simp only [keys, List.map_cons, List.mem_cons]; exact Or.inr hk) hmem
        · subst hmem; exact hl.1 hk

theorem pruneAssignments_eq_filter (m : Assignments) (folderId : String) (hm : WellFormed m) :
    pruneAssignments m folderId = m.filter (fun e => !strictEq e.2 folderId) := by
  unfold pruneAssignments
  rw [pruneAssignments_foldl m [] folderId hm (by simp [keys])]
  simp

theorem getProperty_putOwnProperty_self (m : Assignments) (k : String) (v : AssignmentValue) :
    getProperty (putOwnProperty m k v) k = some v := by
  induction m with
  | nil => simp [putOwnProperty, getProperty, List.lookup]
  | cons e rest ih =>
    obtain ⟨k0, v0⟩ := e
    by_cases h : k0 = k
    · simp [putOwnProperty, h, getProperty, List.lookup]
    · have h2 : (k == k0) = false := by simpa using fun hk => h hk.symm
      simp only [putOwnProperty, h, if_false, getProperty, List.lookup, h2]
      exact ih

theorem getProperty_putOwnProperty_other (m : Assignments) (k k2 : String) (v : AssignmentValue)
    (hne : k2 ≠ k) : getProperty (putOwnProperty m k v) k2 = getProperty m k2 := by
  induction m with
  | nil =>
    have h2 : (k2 == k) = false := by simpa using hne
    simp [putOwnProperty, getProperty, List.lookup, h2]
  | cons e rest ih =>
    obtain ⟨k0, v0⟩ := e
    by_cases h : k0 = k
    · subst h
      have h2 : (k2 == k0) = false := by simpa using hne
      simp [putOwnProperty, getProperty, List.lookup, h2]
    · simp only [putOwnProperty, h, if_false, getProperty, List.lookup]
      cases hk : (k2 == k0)
      · exact ih
      · rfl

theorem keys_putOwnProperty (m : Assignments) (k : String) (v : AssignmentValue) :
    keys (putOwnProperty m k v) = if k ∈ keys m then keys m else keys m ++ [k] := by
  induction m with
  | nil => simp [putOwnProperty, keys]
  | cons e rest ih =>
    obtain ⟨k0, v0⟩ := e
    by_cases h : k0 = k
    · subst h; simp [putOwnProperty, keys]
    · have h2 : k ≠ k0 := fun hk => h hk.symm
      simp only [keys] at ih
      simp only [putOwnProperty, h, if_false, keys, List.map_cons, List.mem_cons, h2, false_or, ih]
      split <;> simp

theorem nodup_keys_putOwnProperty (m : Assignments) (k : String) (v : AssignmentValue)
    (hm : (keys m).Nodup) : (keys (putOwnProperty m k v)).Nodup := by
  rw [keys_putOwnProperty]
  split
  · exact hm
  · rename_i h
    rw [List.nodup_append]
    refine ⟨hm, List.nodup_singleton k, ?_⟩
    intro a ha hb
    simp only [List.mem_singleton] at hb
    subst hb; exact h ha

theorem getProperty_setProperty_self (m : Assignments) (k : String) (v : AssignmentValue)
    (hk : k ≠ "__proto__") : getProperty (setProperty m k v) k = some v := by
  rw [setProperty_of_ne m k v hk]
  exact getProperty_putOwnProperty_self m k v

theorem getProperty_setProperty_other (m : Assignments) (k k2 : String) (v : AssignmentValue)
    (hne : k2 ≠ k) : getProperty (setProperty m k v) k2 = getProperty m k2 := by
  unfold setProperty
  split
  · rfl
  · exact getProperty_putOwnProperty_other m k k2 v hne

theorem mem_keys_putOwnProperty (m : Assignments) (k : String) (v : AssignmentValue) :
    k ∈ keys (putOwnProperty m k v) := by
  rw [keys_putOwnProperty]
  split
  · assumption
  · simp

theorem mem_keys_setProperty (m : Assignments) (k : String) (v : AssignmentValue)
    (hk : k ≠ "__proto__") : k ∈ keys (setProperty m k v) := by
  rw [setProperty_of_ne m k v hk]
  exact mem_keys_putOwnProperty m k v

theorem wellFormed_setProperty (m : Assignments) (k : String) (v : AssignmentValue)
    (hm : WellFormed m) : WellFormed (setProperty m k v) := by
  unfold setProperty
  split
  · exact hm
  · exact nodup_keys_putOwnProperty m k v hm

theorem keys_sublist_filter (m : Assignments) (p : String × AssignmentValue → Bool) :
    List.Sublist (keys (m.filter p)) (keys m) := by
  unfold keys
  exact List.Sublist.map _ (List.filter_sublist m)

theorem wellFormed_deleteProperty (m : Assignments) (k : String)
    (hm : WellFormed m) : WellFormed (deleteProperty m k) :=
  (keys_sublist_filter m _).nodup hm

theorem proto_not_mem_keys_setProperty (m : Assignments) (k : String) (v : AssignmentValue)
    (hproto : "__proto__" ∉ keys m) : "__proto__" ∉ keys (setProperty m k v) := by
  by_cases hk : k = "__proto__"
  · subst hk
    rw [setProperty_proto m v hproto]
    exact hproto
  · rw [setProperty_of_ne m k v hk, keys_putOwnProperty]
    split
    · exact hproto
    · intro h
      simp only [List.mem_append, List.mem_singleton] at h
      rcases h with h | h
      · exact hproto h
      · exact hk h.symm

theorem getProperty_deleteProperty_self (m : Assignments) (k : String) :
    getProperty (deleteProperty m k) k = none := by
  induction m with
  | nil => rfl
  | cons e rest ih =>
    obtain ⟨k0, v0⟩ := e
    by_cases h : k0 = k
    · subst h; simpa [deleteProperty, List.filter_cons] using ih
    · have h2 : (k == k0) = false := by simpa using fun hk => h hk.symm
      simp only [deleteProperty, List.filter_cons, bne_iff_ne, ne_eq, h, not_false_eq_true,
        decide_True, if_true, getProperty, List.lookup, h2]
      exact ih

theorem getProperty_deleteProperty_other (m : Assignments) (k k2 : String) (hne : k2 ≠ k) :
    getProperty (deleteProperty m k) k2 = getProperty m k2 := by
  induction m with
  | nil => rfl
  | cons e rest ih =>
    obtain ⟨k0, v0⟩ := e
    by_cases h : k0 = k
    · subst h
      have h2 : (k2 == k0) = false := by simpa using hne
      simp only [deleteProperty, List.filter_cons, bne_self_eq_false, Bool.false_eq_true,
        if_false, getProperty, List.lookup, h2]
      exact ih
    · simp only [deleteProperty, List.filter_cons, bne_iff_ne, ne_eq, h, not_false_eq_true,
        decide_True, if_true, getProperty, List.lookup]
      cases hk : (k2 == k0)
      · exact ih
      · rfl

theorem deleteProperty_of_not_mem (m : Assignments) (k : String) (h : k ∉ keys m) :
    deleteProperty m k = m := by
  unfold deleteProperty
  rw [List.filter_eq_self]
  intro e he
  have : e.1 ∈ keys m := List.mem_map_of_mem Prod.fst he
  simpa using fun hk : e.1 = k => h (hk ▸ this)

/-! ## The generated id determines the clock value and the suffix -/

theorem digitValue_digitChar : ∀ d, d < 10 → digitValue (Nat.digitChar d) = d := by decide

theorem digitChar_ne_underscore : ∀ d, d < 10 → Nat.digitChar d ≠ '_' := by decide

theorem readDecimal_toDigitsCore (fuel : Nat) : ∀ (n : Nat) (ds : List Char), n < fuel →
    readDecimal 0 (Nat.toDigitsCore 10 fuel n ds) = readDecimal n ds := by
  induction fuel with
  | zero => intro n ds h; omega
  | succ fuel ih =>
    intro n ds h
    have hd : digitValue (Nat.digitChar (n % 10)) = n % 10 :=
      digitValue_digitChar _ (Nat.mod_lt _ (by decide))
    simp only [Nat.toDigitsCore]
    split
    · rename_i h0
      have hn : n % 10 = n := by omega
      simp only [readDecimal, List.foldl_cons, Nat.mul_zero, Nat.zero_add]
      rw [hd, hn]
    · rename_i h0
      rw [ih (n / 10) _ (by omega)]
      have : 10 * (n / 10) + n % 10 = n := Nat.div_add_mod n 10
      simp [readDecimal, hd, this]

theorem toDigitsCore_no_underscore (fuel : Nat) : ∀ (n : Nat) (ds : List Char),
    '_' ∉ ds → '_' ∉ Nat.toDigitsCore 10 fuel n ds := by
  induction fuel with
  | zero => intro n ds h; simpa [Nat.toDigitsCore] using h
  | succ fuel ih =>
    intro n ds h
    have hd : '_' ∉ Nat.digitChar (n % 10) :: ds := by
      simp only [List.mem_cons, not_or]
      exact ⟨fun hc => digitChar_ne_underscore _ (Nat.mod_lt _ (by decide)) hc.symm, h⟩
    simp only [Nat.toDigitsCore]
    split
    · exact hd
    · exact ih _ _ hd

theorem toString_nat_injective (a b : Nat) (h : (toString a).data = (toString b).data) : a = b := by
  have ha := readDecimal_toDigitsCore (a + 1) a [] (by omega)
  have hb := readDecimal_toDigitsCore (b + 1) b [] (by omega)
  simp only [readDecimal, List.foldl_nil] at ha hb
  have h2 : Nat.toDigitsCore 10 (a + 1) a [] = Nat.toDigitsCore 10 (b + 1) b [] := by
    simpa [toString, Nat.repr, Nat.toDigits, List.asString] using h
  rw [← ha, ← hb, h2]

theorem toString_nat_no_underscore (a : Nat) : '_' ∉ (toString a).data := by
  have := toDigitsCore_no_underscore (a + 1) a [] (by simp)
  simpa [toString, Nat.repr, Nat.toDigits, List.asString] using this

theorem append_cons_split (c : Char) : ∀ (l1 l2 r1 r2 : List Char), c ∉ l1 → c ∉ l2 →
    l1 ++ c :: r1 = l2 ++ c :: r2 → l1 = l2 ∧ r1 = r2 := by
  intro l1
  induction l1 with
  | nil =>
    intro l2 r1 r2 _ h2 h
    cases l2 with
    | nil => simpa using h
    | cons x xs =>
      simp only [List.nil_append, List.cons_append, List.cons.injEq] at h
      exact absurd (by simp [h.1]) h2
  | cons y ys ih =>
    intro l2 r1 r2 h1 h2 h
    cases l2 with
    | nil =>
      simp only [List.nil_append, List.cons_append, List.cons.injEq] at h
      exact absurd (by simp [h.1]) h1
    | cons x xs =>
      simp only [List.cons_append, List.cons.injEq] at h
      simp only [List.mem_cons, not_or] at h1 h2
      obtain ⟨e1, e2⟩ := ih xs r1 r2 h1.2 h2.2 h.2
      exact ⟨by rw [h.1, e1], e2⟩

theorem generateId_injective (a b : Nat) (r1 r2 : String)
    (h : generateId a r1 = generateId b r2) : a = b ∧ r1 = r2 := by
  have hd := congrArg String.data h
  simp only [generateId, String.data_append, List.append_assoc] at hd
  have hd2 := List.append_cancel_left hd
  simp only [List.singleton_append] at hd2
  obtain ⟨e1, e2⟩ := append_cons_split '_' _ _ _ _ (toString_nat_no_underscore a)
    (toString_nat_no_underscore b) hd2
  exact ⟨toString_nat_injective a b e1, String.ext e2⟩

/-! ## Lemmas on deletion and on counting -/

theorem deleteFolder_up_store (s : Store) (folderId : String) (hm : WellFormed s.assignments) :
    deleteFolder .up true folderId s =
      ⟨.completed,
        ⟨some (s.folders.filter (fun f => f.id != folderId)),
          some (s.assignments.filter (fun e => !strictEq e.2 folderId))⟩,
        [.get [FOLDERS_KEY, CHAT_ASSIGNMENTS_KEY], .set [FOLDERS_KEY, CHAT_ASSIGNMENTS_KEY],
          .get [FOLDERS_KEY, CHAT_ASSIGNMENTS_KEY]]⟩ := by
  simp [deleteFolder, StoreAvail.up, pruneAssignments_eq_filter _ _ hm]

theorem getProperty_filter_of_keep (m : Assignments) (p : String × AssignmentValue → Bool)
    (hm : (keys m).Nodup) (c : String) (v : AssignmentValue)
    (hget : getProperty m c = some v) (hp : p (c, v) = true) :
    getProperty (m.filter p) c = some v := by
  induction m with
  | nil => simp [getProperty, List.lookup] at hget
  | cons e rest ih =>
    obtain ⟨k0, v0⟩ := e
    have hrest : (keys rest).Nodup := by
      simp only [keys, List.map_cons, List.nodup_cons] at hm
      exact hm.2
    by_cases hk : c = k0
    · subst hk
      have hv : v0 = v := by simpa [getProperty, List.lookup] using hget
      subst hv
      simp [List.filter_cons, hp, getProperty, List.lookup]
    · have h2 : (c == k0) = false := by simpa using hk
      have hget2 : getProperty rest c = some v := by
        simpa [getProperty, List.lookup, h2] using hget
      by_cases hp0 : p (k0, v0) = true
      · simp only [List.filter_cons, hp0, if_true, getProperty, List.lookup, h2]
        exact ih hrest hget2
      · simp only [List.filter_cons, hp0, if_false]
        exact ih hrest hget2

theorem mem_of_getProperty (m : Assignments) (c : String) (v : AssignmentValue)
    (hget : getProperty m c = some v) : (c, v) ∈ m := by
  induction m with
  | nil => simp [getProperty, List.lookup] at hget
  | cons e rest ih =>
    obtain ⟨k0, v0⟩ := e
    by_cases hk : c = k0
    · subst hk
      have hv : v0 = v := by simpa [getProperty, List.lookup] using hget
      simp [hv]
    · have h2 : (c == k0) = false := by simpa using hk
      have hget2 : getProperty rest c = some v := by
        simpa [getProperty, List.lookup, h2] using hget
      exact List.mem_cons_of_mem _ (ih hget2)

theorem getProperty_eq_none_of_not_mem (m : Assignments) (c : String) (h : c ∉ keys m) :
    getProperty m c = none := by
  induction m with
  | nil => rfl
  | cons e rest ih =>
    obtain ⟨k0, v0⟩ := e
    simp only [keys, List.map_cons, List.mem_cons, not_or] at h
    have h2 : (c == k0) = false := by simpa using h.1
    simp only [getProperty, List.lookup, h2]
    exact ih (by simpa [keys] using h.2)

theorem filter_matches_length_eq_chatsInFolder (m : Assignments) (folderId : String)
    (hm : WellFormed m) :
    (m.filter (fun entry => matchesFolder entry.2 folderId)).length = chatsInFolder m folderId := by
  induction m with
  | nil => rfl
  | cons e rest ih =>
    obtain ⟨k0, v0⟩ := e
    simp only [WellFormed, keys, List.map_cons, List.nodup_cons] at hm
    have hrest := ih hm.2
    have hcongr : (keys rest).filter
          (fun chatId => (getProperty ((k0, v0) :: rest) chatId).map normalisedFolderId
            == some folderId)
        = (keys rest).filter
          (fun chatId => (getProperty rest chatId).map normalisedFolderId == some folderId) := by
      apply List.filter_congr
      intro c hc
      have hne : (c == k0) = false := by
        simpa using fun hck : c = k0 => hm.1 (hck ▸ hc)
      simp [getProperty, List.lookup, hne]
    have hhead : getProperty ((k0, v0) :: rest) k0 = some v0 := by
      simp [getProperty, List.lookup]
    unfold chatsInFolder at hrest ⊢
    simp only [keys, List.map_cons] at hcongr ⊢
    rw [List.filter_cons, List.filter_cons, hhead, hcongr]
    by_cases hv : normalisedFolderId v0 = folderId
    · have h1 : matchesFolder v0 folderId = true := (matchesFolder_iff v0 folderId).2 hv
      simp only [h1, if_true, Option.map_some', hv, beq_self_eq_true, List.length_cons]
      simpa [keys] using hrest
    · have h1 : matchesFolder v0 folderId = false := by
        simpa using fun h => hv ((matchesFolder_iff v0 folderId).1 h)
      have h3 : (some (normalisedFolderId v0) == some folderId) = false := by simpa using hv
      simp only [h1, Bool.false_eq_true, if_false, Option.map_some', h3]
      simpa [keys] using hrest

theorem filter_matches_length_putOwnProperty (m : Assignments) (folderId c : String)
    (v v2 : AssignmentValue) (hget : getProperty m c = some v)
    (hsame : normalisedFolderId v2 = normalisedFolderId v) :
    ((putOwnProperty m c v2).filter (fun entry => matchesFolder entry.2 folderId)).length
      = (m.filter (fun entry => matchesFolder entry.2 folderId)).length := by
  induction m with
  | nil => simp [getProperty, List.lookup] at hget
  | cons e rest ih =>
    obtain ⟨k0, v0⟩ := e
    by_cases hk : k0 = c
    · subst hk
      have hv : v0 = v := by simpa [getProperty, List.lookup] using hget
      subst hv
      have hm : matchesFolder v2 folderId = matchesFolder v0 folderId := by
        rw [Bool.eq_iff_iff, matchesFolder_iff, matchesFolder_iff, hsame]
      simp only [putOwnProperty, if_true, List.filter_cons, hm]
      split <;> simp
    · have h2 : (c == k0) = false := by simpa using fun h => hk h.symm
      have hget2 : getProperty rest c = some v := by
        simpa [getProperty, List.lookup, h2] using hget
      have := ih hget2
      simp only [putOwnProperty, hk, if_false, List.filter_cons]
      split <;> simp [this]

theorem filter_matches_length_setProperty (m : Assignments) (folderId c : String)
    (v v2 : AssignmentValue) (hget : getProperty m c = some v)
    (hsame : normalisedFolderId v2 = normalisedFolderId v) :
    ((setProperty m c v2).filter (fun entry => matchesFolder entry.2 folderId)).length
      = (m.filter (fun entry => matchesFolder entry.2 folderId)).length := by
  have hmem : c ∈ keys m := List.mem_map_of_mem Prod.fst (mem_of_getProperty m c v hget)
  rw [setProperty_of_mem m c v2 hmem]
  exact filter_matches_length_putOwnProperty m folderId c v v2 hget hsame

theorem strictEq_iff (v : AssignmentValue) (folderId : String) :
    strictEq v folderId = true ↔ v = .bare folderId := by
  cases v <;> simp [strictEq]

/-! ## Deleting a folder -/

/-- C1 (the code departs from the claim): deleting folder `f1` from a store
whose assignments hold one bare entry and one structured entry for `f1`
completes, removes the folder and the bare entry, and leaves the structured
entry, which still refers to `f1`. -/
theorem deleteFolder_keeps_structured_assignment :
    (deleteFolder .up true "f1"
        ⟨some [⟨"f1", "Work", 10⟩],
          some [("c1", .bare "f1"), ("c2", .structured "f1" "My Chat" 20)]⟩).outcome
      = .completed ∧
    (deleteFolder .up true "f1"
        ⟨some [⟨"f1", "Work", 10⟩],
          some [("c1", .bare "f1"), ("c2", .structured "f1" "My Chat" 20)]⟩).store
      = ⟨some [], some [("c2", .structured "f1" "My Chat" 20)]⟩ ∧
    (getProperty
        (deleteFolder .up true "f1"
          ⟨some [⟨"f1", "Work", 10⟩],
            some [("c1", .bare "f1"), ("c2", .structured "f1" "My Chat" 20)]⟩).store.assignments
        "c2").map normalisedFolderId = some "f1" := by
  decide

/-- C2 (the code departs from the claim): creating the folder `Work`, saving
chat `c1` to it and then deleting the folder reaches a store with no folder
and an assignment of `c1` to the deleted folder, so the reachable state has a
dangling reference. -/
theorem reachable_dangling_reference :
    Reachable asciiOps
        ⟨some [], some [("c1", .structured "folder_1700000000000_k3x9q2m1z" "My Chat" 1700000000500)]⟩ ∧
      ¬ NoDangling
        ⟨some [], some [("c1", .structured "folder_1700000000000_k3x9q2m1z" "My Chat" 1700000000500)]⟩ := by
  refine ⟨?_, by decide⟩
  have r0 : Reachable asciiOps Store.empty := Reachable.empty
  have r1 := Reachable.step r0
    (Step.create Store.empty "Work" 1700000000000 "k3x9q2m1z" 1700000000000)
  have e1 : (createFolder asciiOps .up "Work" 1700000000000 "k3x9q2m1z" 1700000000000
      Store.empty).store
      = ⟨some [⟨"folder_1700000000000_k3x9q2m1z", "Work", 1700000000000⟩], none⟩ := by decide
  rw [e1] at r1
  have r2 := Reachable.step r1
    (Step.assign _ "c1" "folder_1700000000000_k3x9q2m1z" "My Chat" 1700000000500 (by decide))
  have e2 : (assignChatToFolder .up "c1" "folder_1700000000000_k3x9q2m1z" "My Chat" 1700000000500
      ⟨some [⟨"folder_1700000000000_k3x9q2m1z", "Work", 1700000000000⟩], none⟩).store
      = ⟨some [⟨"folder_1700000000000_k3x9q2m1z", "Work", 1700000000000⟩],
          some [("c1", .structured "folder_1700000000000_k3x9q2m1z" "My Chat" 1700000000500)]⟩ := by
    decide
  rw [e2] at r2
  have r3 := Reachable.step r2 (Step.delete _ "folder_1700000000000_k3x9q2m1z")
  have e3 : (deleteFolder .up true "folder_1700000000000_k3x9q2m1z"
      ⟨some [⟨"folder_1700000000000_k3x9q2m1z", "Work", 1700000000000⟩],
        some [("c1", .structured "folder_1700000000000_k3x9q2m1z" "My Chat" 1700000000500)]⟩).store
      = ⟨some [], some [("c1", .structured "folder_1700000000000_k3x9q2m1z" "My Chat" 1700000000500)]⟩ := by
    decide
  rw [e3] at r3
  exact r3

/-! ## Counting the chats of a folder -/

/-- C3: on a mapping whose values are bare strings or structured records, the
chat count of the panel and the chat count of the sidebar for a folder both
equal the number of chat ids whose normalised folder id is the folder id, and
neither changes when the value of an entry is replaced by a value (of the
other shape, or of the same one) that carries the same folder id. -/
theorem chatCount_shape_independent (m : Assignments) (folder : Folder)
    (hm : WellFormed m) :
    panelChatCount m folder = chatsInFolder m folder.id ∧
    sidebarChatCount m folder = chatsInFolder m folder.id ∧
    ∀ (chatId : String) (v v2 : AssignmentValue),
      getProperty m chatId = some v → normalisedFolderId v2 = normalisedFolderId v →
        panelChatCount (setProperty m chatId v2) folder = panelChatCount m folder ∧
        sidebarChatCount (setProperty m chatId v2) folder = sidebarChatCount m folder := by
  refine ⟨filter_matches_length_eq_chatsInFolder m folder.id hm,
    filter_matches_length_eq_chatsInFolder m folder.id hm, ?_⟩
  intro chatId v v2 hget hsame
  exact ⟨filter_matches_length_setProperty m folder.id chatId v v2 hget hsame,
    filter_matches_length_setProperty m folder.id chatId v v2 hget hsame⟩

/-- Witness for C3: a mapping with one bare and two structured entries; the
bare entry of `c1` is replaced by a structured one for the same folder. -/
theorem chatCount_shape_independent_witness :
    WellFormed [("c1", .bare "f1"), ("c2", .structured "f1" "Two" 5), ("c3", .structured "f2" "Three" 6)] ∧
    panelChatCount [("c1", .bare "f1"), ("c2", .structured "f1" "Two" 5), ("c3", .structured "f2" "Three" 6)]
        ⟨"f1", "Work", 0⟩ = 2 ∧
    panelChatCount
        (setProperty [("c1", .bare "f1"), ("c2", .structured "f1" "Two" 5), ("c3", .structured "f2" "Three" 6)]
          "c1" (.structured "f1" "One" 7))
        ⟨"f1", "Work", 0⟩ = 2 := by
  have h := chatCount_shape_independent
    [("c1", .bare "f1"), ("c2", .structured "f1" "Two" 5), ("c3", .structured "f2" "Three" 6)]
    ⟨"f1", "Work", 0⟩ (by decide)
  have h1 : chatsInFolder
      [("c1", .bare "f1"), ("c2", .structured "f1" "Two" 5), ("c3", .structured "f2" "Three" 6)]
      "f1" = 2 := by decide
  refine ⟨by decide, h.1.trans h1, ?_⟩
  exact ((h.2.2 "c1" (.bare "f1") (.structured "f1" "One" 7) (by decide) (by decide)).1).trans
    (h.1.trans h1)

/-! ## Creating a folder -/

theorem createFolder_duplicate_run (js : StringOps) (input : String)
    (nowId : Nat) (rand : String) (nowCreated : Nat) (s : Store)
    (hne : js.trim input ≠ "")
    (hdup : ∃ f ∈ s.folders, js.toLowerCase f.name = js.toLowerCase (js.trim input)) :
    createFolder js .up input nowId rand nowCreated s
      = ⟨.duplicateAlert, s, [.get [FOLDERS_KEY]]⟩ := by
  have hany : (s.folders.any
      (fun f => js.toLowerCase f.name == js.toLowerCase (js.trim input))) = true := by
    obtain ⟨f, hf, he⟩ := hdup
    exact List.any_eq_true.2 ⟨f, hf, by simpa using he⟩
  simp [createFolder, hne, StoreAvail.up, hany]

/-- C5: when the trimmed input is empty, `createFolder` ends in the validation
alert without any call to the store, whether or not the store is available,
and the store (both collections) is left as it was. -/
theorem createFolder_empty_rejected (js : StringOps) (avail : StoreAvail) (input : String)
    (nowId : Nat) (rand : String) (nowCreated : Nat) (s : Store)
    (hempty : js.trim input = "") :
    createFolder js avail input nowId rand nowCreated s = ⟨.validationAlert, s, []⟩ ∧
    (createFolder js avail input nowId rand nowCreated s).calls = [] ∧
    (createFolder js avail input nowId rand nowCreated s).store.folders = s.folders ∧
    (createFolder js avail input nowId rand nowCreated s).store.assignments = s.assignments := by
  simp [createFolder, hempty]

/-- Witness for C5: a blank input on a store with one folder and one
assignment. -/
theorem createFolder_empty_rejected_witness :
    asciiOps.trim "   " = "" ∧
    createFolder asciiOps .up "   " 20 "k3x9q2m1z" 20
        ⟨some [⟨"f1", "Work", 10⟩], some [("c1", .bare "f1")]⟩
      = ⟨.validationAlert, ⟨some [⟨"f1", "Work", 10⟩], some [("c1", .bare "f1")]⟩, []⟩ :=
  ⟨by decide,
    (createFolder_empty_rejected asciiOps .up "   " 20 "k3x9q2m1z" 20
      ⟨some [⟨"f1", "Work", 10⟩], some [("c1", .bare "f1")]⟩ (by decide)).1⟩

theorem createFolder_fresh_run (js : StringOps) (input : String)
    (nowId : Nat) (rand : String) (nowCreated : Nat) (s : Store)
    (hne : js.trim input ≠ "")
    (hfresh : ∀ f ∈ s.folders, js.toLowerCase f.name ≠ js.toLowerCase (js.trim input)) :
    createFolder js .up input nowId rand nowCreated s
      = ⟨.completed,
          ⟨some (s.folders ++ [⟨generateId nowId rand, js.trim input, nowCreated⟩]),
            s.chat_assignments⟩,
          [.get [FOLDERS_KEY], .set [FOLDERS_KEY],
            .get [FOLDERS_KEY, CHAT_ASSIGNMENTS_KEY]]⟩ := by
  have hex : ¬ ∃ x ∈ s.chat_folders.getD [],
      js.toLowerCase x.name = js.toLowerCase (js.trim input) := by
    rintro ⟨f, hf, he⟩
    exact hfresh f hf he
  simp [createFolder, hne, StoreAvail.up, Store.folders, hex]

/-- C6: when the trimmed input `t` is non-empty and differs, after
lower-casing, from the lower-cased name of every stored folder, `createFolder`
completes and persists the stored sequence followed by one folder with the
generated id, the name `t` and the clock value as `createdAt`; every `set` it
issues names the folder key alone, so none names the assignments key, and the
assignments value of the store is not touched. -/
theorem createFolder_appends (js : StringOps) (input : String)
    (nowId : Nat) (rand : String) (nowCreated : Nat) (s : Store)
    (hne : js.trim input ≠ "")
    (hfresh : ∀ f ∈ s.folders, js.toLowerCase f.name ≠ js.toLowerCase (js.trim input)) :
    (createFolder js .up input nowId rand nowCreated s).outcome = .completed ∧
    (createFolder js .up input nowId rand nowCreated s).store.folders
      = s.folders ++ [⟨generateId nowId rand, js.trim input, nowCreated⟩] ∧
    (createFolder js .up input nowId rand nowCreated s).store.folders.length
      = s.folders.length + 1 ∧
    (createFolder js .up input nowId rand nowCreated s).store.chat_assignments
      = s.chat_assignments ∧
    StoreCall.set [FOLDERS_KEY] ∈ (createFolder js .up input nowId rand nowCreated s).calls ∧
    (∀ ks, StoreCall.set ks ∈ (createFolder js .up input nowId rand nowCreated s).calls →
      ks = [FOLDERS_KEY] ∧ CHAT_ASSIGNMENTS_KEY ∉ ks) := by
  rw [createFolder_fresh_run js input nowId rand nowCreated s hne hfresh]
  refine ⟨rfl, by simp [Store.folders], by simp [Store.folders], rfl, by simp, ?_⟩
  intro ks hks
  simp only [List.mem_cons, StoreCall.set.injEq, List.mem_singleton, List.not_mem_nil,
    or_false, reduceCtorEq, false_or] at hks
  subst hks
  exact ⟨rfl, by decide⟩

/-- Witness for C6: `Home` is created next to `Work`. -/
theorem createFolder_appends_witness :
    asciiOps.trim " Home " ≠ "" ∧
    (createFolder asciiOps .up " Home " 20 "k3x9q2m1z" 21
        ⟨some [⟨"f1", "Work", 10⟩], some [("c1", .bare "f1")]⟩).store.folders
      = [⟨"f1", "Work", 10⟩] ++ [⟨generateId 20 "k3x9q2m1z", asciiOps.trim " Home ", 21⟩] :=
  ⟨by decide,
    (createFolder_appends asciiOps " Home " 20 "k3x9q2m1z" 21
      ⟨some [⟨"f1", "Work", 10⟩], some [("c1", .bare "f1")]⟩ (by decide) (by decide)).2.1⟩

/-- C7, counterexample: `Work` and `Home` are created one after the other
while the clock and the random source return the same values to both calls;
both calls complete and the two folders carry the same id. -/
theorem createFolder_twice_same_id :
    (createFolder asciiOps .up "Work" 1700000000000 "k3x9q2m1z" 1700000000000
        Store.empty).outcome = .completed ∧
    (createFolder asciiOps .up "Home" 1700000000000 "k3x9q2m1z" 1700000000000
        (createFolder asciiOps .up "Work" 1700000000000 "k3x9q2m1z" 1700000000000
          Store.empty).store).outcome = .completed ∧
    (createFolder asciiOps .up "Home" 1700000000000 "k3x9q2m1z" 1700000000000
        (createFolder asciiOps .up "Work" 1700000000000 "k3x9q2m1z" 1700000000000
          Store.empty).store).store.folders
      = [⟨"folder_1700000000000_k3x9q2m1z", "Work", 1700000000000⟩,
         ⟨"folder_1700000000000_k3x9q2m1z", "Home", 1700000000000⟩] := by
  decide

/-- C7, amended: for two names that are non-empty after trimming, differ from
each other after lower-casing and differ from every stored name, the two
creations complete and append two folders whose ids are the generated ones;
the ids are equal exactly when both calls obtained the same clock value and
the same random suffix.  No id is compared with the ids already stored. -/
theorem createFolder_twice_ids (js : StringOps) (n1 n2 : String)
    (now1 now2 : Nat) (rand1 rand2 : String) (created1 created2 : Nat) (s : Store)
    (h1 : js.trim n1 ≠ "") (h2 : js.trim n2 ≠ "")
    (h12 : js.toLowerCase (js.trim n1) ≠ js.toLowerCase (js.trim n2))
    (hs1 : ∀ f ∈ s.folders, js.toLowerCase f.name ≠ js.toLowerCase (js.trim n1))
    (hs2 : ∀ f ∈ s.folders, js.toLowerCase f.name ≠ js.toLowerCase (js.trim n2)) :
    (createFolder js .up n1 now1 rand1 created1 s).outcome = .completed ∧
    (createFolder js .up n2 now2 rand2 created2
        (createFolder js .up n1 now1 rand1 created1 s).store).outcome = .completed ∧
    (createFolder js .up n2 now2 rand2 created2
        (createFolder js .up n1 now1 rand1 created1 s).store).store.folders
      = s.folders ++ [⟨generateId now1 rand1, js.trim n1, created1⟩,
          ⟨generateId now2 rand2, js.trim n2, created2⟩] ∧
    (generateId now1 rand1 = generateId now2 rand2 ↔ now1 = now2 ∧ rand1 = rand2) := by
  have e1 := createFolder_fresh_run js n1 now1 rand1 created1 s h1 hs1
  have hs2b : ∀ f ∈ (⟨some (s.folders ++ [⟨generateId now1 rand1, js.trim n1, created1⟩]),
      s.chat_assignments⟩ : Store).folders,
      js.toLowerCase f.name ≠ js.toLowerCase (js.trim n2) := by
    intro f hf
    simp only [Store.folders, Option.getD_some, List.mem_append, List.mem_singleton] at hf
    rcases hf with hf | hf
    · exact hs2 f hf
    · subst hf; exact h12
  have e2 := createFolder_fresh_run js n2 now2 rand2 created2 _ h2 hs2b
  rw [e1, e2]
  refine ⟨rfl, rfl, by simp [Store.folders], ?_⟩
  constructor
  · exact generateId_injective now1 now2 rand1 rand2
  · rintro ⟨ha, hr⟩; rw [ha, hr]

/-- Witness for C7: `Work` and `Home` are created at two different clock
values. -/
theorem createFolder_twice_ids_witness :
    (createFolder asciiOps .up "Home" 1700000000007 "k3x9q2m1z" 1700000000007
        (createFolder asciiOps .up "Work" 1700000000000 "k3x9q2m1z" 1700000000000
          Store.empty).store).store.folders
      = Store.empty.folders ++
        [⟨generateId 1700000000000 "k3x9q2m1z", asciiOps.trim "Work", 1700000000000⟩,
         ⟨generateId 1700000000007 "k3x9q2m1z", asciiOps.trim "Home", 1700000000007⟩] ∧
    (generateId 1700000000000 "k3x9q2m1z" = generateId 1700000000007 "k3x9q2m1z" ↔
      1700000000000 = 1700000000007 ∧ "k3x9q2m1z" = "k3x9q2m1z") :=
  (createFolder_twice_ids asciiOps "Work" "Home" 1700000000000 1700000000007
    "k3x9q2m1z" "k3x9q2m1z" 1700000000000 1700000000007 Store.empty
    (by decide) (by decide) (by decide) (by decide) (by decide)).2.2

/-! ## Deleting a folder that is not stored, and what a deletion leaves alone -/

/-- C8, counterexample: the store has no folder and one bare assignment whose
value is `gone`; deleting the folder id `gone`, which is no stored folder,
completes and removes that assignment. -/
theorem deleteFolder_missing_id_prunes_bare :
    "gone" ∉ liveIds ⟨some [], some [("c1", .bare "gone")]⟩ ∧
    (deleteFolder .up true "gone" ⟨some [], some [("c1", .bare "gone")]⟩).outcome
      = .completed ∧
    (deleteFolder .up true "gone" ⟨some [], some [("c1", .bare "gone")]⟩).store.assignments
      = [] ∧
    (deleteFolder .up true "gone" ⟨some [], some [("c1", .bare "gone")]⟩).store.assignments
      ≠ (⟨some [], some [("c1", .bare "gone")]⟩ : Store).assignments := by
  decide

/-- C8, amended: for a folder id that is the id of no stored folder, a
confirmed `deleteFolder` completes without an alert and leaves the folder
sequence equal; of the assignments it removes the entries whose value is the
bare string equal to that id and no other, so the mapping is left equal
whenever it holds no such entry. -/
theorem deleteFolder_missing_id (s : Store) (folderId : String)
    (hm : WellFormed s.assignments) (hmissing : folderId ∉ liveIds s) :
    (deleteFolder .up true folderId s).outcome = .completed ∧
    (deleteFolder .up true folderId s).store.folders = s.folders ∧
    (deleteFolder .up true folderId s).store.assignments
      = s.assignments.filter (fun e => e.2 != .bare folderId) ∧
    ((∀ e ∈ s.assignments, e.2 ≠ .bare folderId) →
      (deleteFolder .up true folderId s).store.assignments = s.assignments) := by
  rw [deleteFolder_up_store s folderId hm]
  have hfilter : s.assignments.filter (fun e => !strictEq e.2 folderId)
      = s.assignments.filter (fun e => e.2 != .bare folderId) := by
    apply List.filter_congr
    intro e _
    by_cases h : e.2 = .bare folderId
    · simp [h, strictEq]
    · have h2 : strictEq e.2 folderId = false := by
        simpa using fun hh => h ((strictEq_iff _ _).1 hh)
      simp [h, h2]
  refine ⟨rfl, ?_, ?_, ?_⟩
  · simp only [Store.folders, Option.getD_some]
    rw [List.filter_eq_self]
    intro f hf
    have : f.id ≠ folderId := fun he => hmissing (he ▸ List.mem_map_of_mem Folder.id hf)
    simpa using this
  · simpa [Store.assignments] using hfilter
  · intro hnone
    show List.filter (fun e => !strictEq e.2 folderId) s.assignments = s.assignments
    rw [hfilter, List.filter_eq_self]
    intro e he
    simpa using hnone e he

/-- Witness for C8: deleting the unknown id `gone` from a store with one
folder, one bare and one structured assignment. -/
theorem deleteFolder_missing_id_witness :
    WellFormed (⟨some [⟨"f1", "Work", 10⟩],
      some [("c1", .bare "f1"), ("c2", .structured "f1" "Two" 5)]⟩ : Store).assignments ∧
    "gone" ∉ liveIds ⟨some [⟨"f1", "Work", 10⟩],
      some [("c1", .bare "f1"), ("c2", .structured "f1" "Two" 5)]⟩ ∧
    (deleteFolder .up true "gone" ⟨some [⟨"f1", "Work", 10⟩],
      some [("c1", .bare "f1"), ("c2", .structured "f1" "Two" 5)]⟩).store.folders
      = (⟨some [⟨"f1", "Work", 10⟩],
          some [("c1", .bare "f1"), ("c2", .structured "f1" "Two" 5)]⟩ : Store).folders :=
  ⟨by decide, by decide,
    (deleteFolder_missing_id ⟨some [⟨"f1", "Work", 10⟩],
      some [("c1", .bare "f1"), ("c2", .structured "f1" "Two" 5)]⟩ "gone"
      (by decide) (by decide)).2.1⟩

/-- C9: after a confirmed `deleteFolder` the folder sequence is the stored one
without the folders of that id (the others are kept as they are and in
order), and every assignment whose folder id differs from the deleted id is
still found under its chat id with the same value. -/
theorem deleteFolder_frame (s : Store) (folderId : String)
    (hm : WellFormed s.assignments) :
    (deleteFolder .up true folderId s).store.folders
      = s.folders.filter (fun f => f.id != folderId) ∧
    (∀ f ∈ s.folders, f.id ≠ folderId → f ∈ (deleteFolder .up true folderId s).store.folders) ∧
    List.Sublist (deleteFolder .up true folderId s).store.folders s.folders ∧
    ∀ (chatId : String) (v : AssignmentValue),
      getProperty s.assignments chatId = some v → normalisedFolderId v ≠ folderId →
        getProperty (deleteFolder .up true folderId s).store.assignments chatId = some v := by
  rw [deleteFolder_up_store s folderId hm]
  refine ⟨rfl, ?_, ?_, ?_⟩
  · intro f hf hne
    simp only [Store.folders, Option.getD_some]
    exact List.mem_filter.2 ⟨hf, by simpa using hne⟩
  · simp only [Store.folders, Option.getD_some]
    exact List.filter_sublist _
  · intro chatId v hget hne
    simp only [Store.assignments, Option.getD_some]
    apply getProperty_filter_of_keep _ _ hm chatId v hget
    have : strictEq v folderId = false := by
      rw [Bool.eq_false_iff]
      intro h
      rw [strictEq_iff] at h
      exact hne (by rw [h]; rfl)
    simp [this]

/-- Witness for C9: folder `f1` is deleted; folder `f2` and the assignment of
`c3` to `f2` stay. -/
theorem deleteFolder_frame_witness :
    WellFormed (⟨some [⟨"f1", "Work", 10⟩, ⟨"f2", "Home", 11⟩],
      some [("c1", .bare "f1"), ("c3", .structured "f2" "Three" 6)]⟩ : Store).assignments ∧
    (deleteFolder .up true "f1" ⟨some [⟨"f1", "Work", 10⟩, ⟨"f2", "Home", 11⟩],
      some [("c1", .bare "f1"), ("c3", .structured "f2" "Three" 6)]⟩).store.folders
      = [⟨"f2", "Home", 11⟩] ∧
    getProperty (deleteFolder .up true "f1" ⟨some [⟨"f1", "Work", 10⟩, ⟨"f2", "Home", 11⟩],
      some [("c1", .bare "f1"), ("c3", .structured "f2" "Three" 6)]⟩).store.assignments "c3"
      = some (.structured "f2" "Three" 6) :=
  ⟨by decide,
    (deleteFolder_frame ⟨some [⟨"f1", "Work", 10⟩, ⟨"f2", "Home", 11⟩],
      some [("c1", .bare "f1"), ("c3", .structured "f2" "Three" 6)]⟩ "f1" (by decide)).1.trans
      (by decide),
    (deleteFolder_frame ⟨some [⟨"f1", "Work", 10⟩, ⟨"f2", "Home", 11⟩],
      some [("c1", .bare "f1"), ("c3", .structured "f2" "Three" 6)]⟩ "f1" (by decide)).2.2.2
      "c3" (.structured "f2" "Three" 6) (by decide) (by decide)⟩

/-! ## Assigning a chat -/

theorem assignChatToFolder_run (s : Store) (chatId folderId chatName : String) (now : Nat)
    (hf : folderId ≠ "") :
    assignChatToFolder .up chatId folderId chatName now s
      = ⟨.completed,
          ⟨s.chat_folders,
            some (setProperty s.assignments chatId
              (.structured folderId (if chatName ≠ "" then chatName else chatId) now))⟩,
          [.get [CHAT_ASSIGNMENTS_KEY], .set [CHAT_ASSIGNMENTS_KEY]]⟩ := by
  simp [assignChatToFolder, StoreAvail.up, hf]

theorem filter_key_length_of_mem (m : Assignments) (chatId : String)
    (hm : WellFormed m) (hmem : chatId ∈ keys m) :
    (m.filter (fun e => e.1 == chatId)).length = 1 := by
  induction m with
  | nil => simp [keys] at hmem
  | cons e rest ih =>
    obtain ⟨k0, v0⟩ := e
    simp only [WellFormed, keys, List.map_cons, List.nodup_cons] at hm
    simp only [keys, List.map_cons, List.mem_cons] at hmem
    by_cases hk : k0 = chatId
    · subst hk
      have hnil : rest.filter (fun e => e.1 == k0) = [] := by
        rw [List.filter_eq_nil_iff]
        intro e he hek
        have : e.1 ∈ List.map Prod.fst rest := List.mem_map_of_mem Prod.fst he
        exact hm.1 ((by simpa using hek : e.1 = k0) ▸ this)
      simp [List.filter_cons, hnil]
    · have hk2 : (k0 == chatId) = false := by simpa using hk
      have hrest : chatId ∈ keys rest := by
        rcases hmem with h | h
        · exact absurd h.symm hk
        · exact h
      simp only [List.filter_cons, hk2, Bool.false_eq_true, if_false]
      exact ih hm.2 hrest

/-- C10, counterexample: `assignChatToFolder` is called with the chat id
`__proto__` and the folder id `f1`; it completes, and the persisted mapping is
the stored one, with no entry for that chat id. -/
theorem assignChatToFolder_proto_not_written :
    (assignChatToFolder .up "__proto__" "f1" "My Chat" 5
        ⟨some [⟨"f1", "Work", 1⟩], some [("c0", .bare "f1")]⟩).outcome = .completed ∧
    (assignChatToFolder .up "__proto__" "f1" "My Chat" 5
        ⟨some [⟨"f1", "Work", 1⟩], some [("c0", .bare "f1")]⟩).store.assignments
      = [("c0", .bare "f1")] ∧
    getProperty (assignChatToFolder .up "__proto__" "f1" "My Chat" 5
        ⟨some [⟨"f1", "Work", 1⟩], some [("c0", .bare "f1")]⟩).store.assignments "__proto__"
      = none := by
  decide

/-- C10, amended: for a chat id other than `__proto__` and a non-empty folder
id, `assignChatToFolder` completes and persists a mapping in which the chat id
maps to the structured record with that folder id, the display name (the chat
id when the display name is empty) and the clock value; every other key reads
as before; the folder sequence is neither read nor written, so the folder id
is not checked against it.  On a mapping that comes from an object, a second
assignment of the same chat to another folder leaves exactly one entry for
the chat, with the second folder id. -/
theorem assignChatToFolder_upsert (s : Store) (chatId folderId chatName : String)
    (now : Nat) (hc : chatId ≠ "__proto__") (hf : folderId ≠ "") :
    (assignChatToFolder .up chatId folderId chatName now s).outcome = .completed ∧
    getProperty (assignChatToFolder .up chatId folderId chatName now s).store.assignments chatId
      = some (.structured folderId (if chatName ≠ "" then chatName else chatId) now) ∧
    (∀ other, other ≠ chatId →
      getProperty (assignChatToFolder .up chatId folderId chatName now s).store.assignments other
        = getProperty s.assignments other) ∧
    (assignChatToFolder .up chatId folderId chatName now s).store.chat_folders
      = s.chat_folders ∧
    (assignChatToFolder .up chatId folderId chatName now s).calls
      = [.get [CHAT_ASSIGNMENTS_KEY], .set [CHAT_ASSIGNMENTS_KEY]] ∧
    (WellFormed s.assignments →
      ∀ (folderB nameB : String) (nowB : Nat), folderB ≠ "" →
        ((assignChatToFolder .up chatId folderB nameB nowB
            (assignChatToFolder .up chatId folderId chatName now s).store).store.assignments.filter
          (fun e => e.1 == chatId)).length = 1 ∧
        getProperty (assignChatToFolder .up chatId folderB nameB nowB
            (assignChatToFolder .up chatId folderId chatName now s).store).store.assignments chatId
          = some (.structured folderB (if nameB ≠ "" then nameB else chatId) nowB)) := by
  rw [assignChatToFolder_run s chatId folderId chatName now hf]
  refine ⟨rfl, ?_, ?_, rfl, rfl, ?_⟩
  · exact getProperty_setProperty_self _ _ _ hc
  · intro other hne
    exact getProperty_setProperty_other _ _ _ _ hne
  · intro hm folderB nameB nowB hB
    rw [assignChatToFolder_run _ chatId folderB nameB nowB hB]
    refine ⟨?_, getProperty_setProperty_self _ _ _ hc⟩
    apply filter_key_length_of_mem
    · exact wellFormed_setProperty _ _ _ (wellFormed_setProperty _ _ _ hm)
    · exact mem_keys_setProperty _ _ _ hc

/-- Witness for C10: chat `chat1` moves from `folderA` to `folderB`; neither
id is the id of a stored folder. -/
theorem assignChatToFolder_upsert_witness :
    "chat1" ≠ "__proto__" ∧
    "folderB" ≠ "" ∧
    "folderB" ∉ liveIds (assignChatToFolder .up "chat1" "folderA" "My Chat" 5
        ⟨none, some [("c0", .bare "f1")]⟩).store ∧
    getProperty (assignChatToFolder .up "chat1" "folderB" "My Chat" 6
        (assignChatToFolder .up "chat1" "folderA" "My Chat" 5
          ⟨none, some [("c0", .bare "f1")]⟩).store).store.assignments "chat1"
      = some (.structured "folderB" (if "My Chat" ≠ "" then "My Chat" else "chat1") 6) :=
  ⟨by decide, by decide, by decide,
    (assignChatToFolder_upsert
      (assignChatToFolder .up "chat1" "folderA" "My Chat" 5
        ⟨none, some [("c0", .bare "f1")]⟩).store
      "chat1" "folderB" "My Chat" 6 (by decide) (by decide)).2.1⟩

/-! ## Validation of the chat name and removal of an assignment -/

theorem manualChatId_ne_empty (encoded : String) : manualChatId encoded ≠ "" := by
  intro h
  have hl := congrArg String.length h
  simp only [manualChatId, String.length_append] at hl
  have h7 : ("manual_" : String).length = 7 := by decide
  have h0 : ("" : String).length = 0 := by decide
  rw [h7, h0] at hl
  omega

theorem keys_deleteProperty (m : Assignments) (chatId : String) :
    keys (deleteProperty m chatId) = (keys m).filter (fun k => k != chatId) := by
  induction m with
  | nil => rfl
  | cons e rest ih =>
    obtain ⟨k0, v0⟩ := e
    simp only [keys, deleteProperty] at ih
    by_cases h : k0 = chatId
    · simp [keys, deleteProperty, List.filter_cons, h, ih]
    · simp [keys, deleteProperty, List.filter_cons, h, ih]

theorem removeChatFromFolder_run (s : Store) (chatId : String) :
    removeChatFromFolder .up true chatId s
      = ⟨.completed, ⟨s.chat_folders, some (deleteProperty s.assignments chatId)⟩,
          [.get [CHAT_ASSIGNMENTS_KEY], .set [CHAT_ASSIGNMENTS_KEY], .redraw]⟩ := by
  simp [removeChatFromFolder, StoreAvail.up]

theorem assignChatToFolder_empty_folder_run (s : Store) (chatId chatName : String) (now : Nat) :
    assignChatToFolder .up chatId "" chatName now s
      = ⟨.completed, ⟨s.chat_folders, some (deleteProperty s.assignments chatId)⟩,
          [.get [CHAT_ASSIGNMENTS_KEY], .set [CHAT_ASSIGNMENTS_KEY]]⟩ := by
  simp [assignChatToFolder, StoreAvail.up]

/-- C11, counterexample: `assignChatToFolder` is called with an empty chat id
and the folder id `f1` on the empty store; it completes and persists an entry
under the empty key. -/
theorem assignChatToFolder_empty_chat_id_written :
    (assignChatToFolder .up "" "f1" "My Chat" 5 Store.empty).outcome = .completed ∧
    (assignChatToFolder .up "" "f1" "My Chat" 5 Store.empty).store.assignments
      = [("", .structured "f1" "My Chat" 5)] ∧
    (assignChatToFolder .up "" "f1" "My Chat" 5 Store.empty).calls
      = [.get [CHAT_ASSIGNMENTS_KEY], .set [CHAT_ASSIGNMENTS_KEY]] := by
  decide

/-- C11, amended: the save handler of the panel ends in a validation alert,
without any store call and with the store as it was, when the trimmed chat
name is empty or no folder is selected; the chat id it derives is never empty;
`assignChatToFolder` itself does not test the chat id and, for a non-empty
folder id, stores the record under an empty chat id as under any other. -/
theorem saveToFolder_validation (js : StringOps) (avail : StoreAvail)
    (chatNameValue selectedFolderId : String) (now : Nat) (s : Store) :
    (js.trim chatNameValue = "" ∨ selectedFolderId = "" →
      saveToFolder js avail chatNameValue selectedFolderId now s = ⟨.validationAlert, s, []⟩) ∧
    (∀ encoded, manualChatId encoded ≠ "") ∧
    (∀ folderId chatName, folderId ≠ "" →
      (assignChatToFolder .up "" folderId chatName now s).outcome = .completed ∧
      getProperty (assignChatToFolder .up "" folderId chatName now s).store.assignments ""
        = some (.structured folderId (if chatName ≠ "" then chatName else "") now)) := by
  refine ⟨?_, manualChatId_ne_empty, ?_⟩
  · intro h
    by_cases hn : js.trim chatNameValue = ""
    · simp [saveToFolder, hn]
    · rcases h with h | h
      · exact absurd h hn
      · simp [saveToFolder, hn, h]
  · intro folderId chatName hf
    rw [assignChatToFolder_run s "" folderId chatName now hf]
    exact ⟨rfl, getProperty_setProperty_self _ _ _ (by decide)⟩

/-- C12: a confirmed `removeChatFromFolder` and an `assignChatToFolder` with an
empty folder id both complete and persist the same mapping; when the chat id
is no key of the stored mapping that mapping is the stored one; in every case
the chat id is no key afterwards, the other keys are the stored ones in the
stored order and read as before, and the folder value is untouched. -/
theorem unassign_removes_key (s : Store) (chatId chatName : String) (now : Nat) :
    (removeChatFromFolder .up true chatId s).outcome = .completed ∧
    (assignChatToFolder .up chatId "" chatName now s).outcome = .completed ∧
    (assignChatToFolder .up chatId "" chatName now s).store.assignments
      = (removeChatFromFolder .up true chatId s).store.assignments ∧
    (chatId ∉ keys s.assignments →
      (removeChatFromFolder .up true chatId s).store.assignments = s.assignments) ∧
    getProperty (removeChatFromFolder .up true chatId s).store.assignments chatId = none ∧
    (∀ other, other ≠ chatId →
      getProperty (removeChatFromFolder .up true chatId s).store.assignments other
        = getProperty s.assignments other) ∧
    keys (removeChatFromFolder .up true chatId s).store.assignments
      = (keys s.assignments).filter (fun k => k != chatId) ∧
    List.Sublist (removeChatFromFolder .up true chatId s).store.assignments s.assignments ∧
    (removeChatFromFolder .up true chatId s).store.chat_folders = s.chat_folders := by
  rw [removeChatFromFolder_run, assignChatToFolder_empty_folder_run]
  refine ⟨rfl, rfl, rfl, ?_, ?_, ?_, ?_, ?_, rfl⟩
  · intro h
    exact deleteProperty_of_not_mem _ _ h
  · exact getProperty_deleteProperty_self _ _
  · intro other hne
    exact getProperty_deleteProperty_other _ _ _ hne
  · exact keys_deleteProperty _ _
  · exact List.filter_sublist _

/-- Witness for C12: `c9` is removed from a mapping that has no such key, and
`c1` from one that has it. -/
theorem unassign_removes_key_witness :
    "c9" ∉ keys (⟨none, some [("c1", .bare "f1"), ("c2", .structured "f1" "Two" 5)]⟩ : Store).assignments ∧
    (removeChatFromFolder .up true "c9"
        ⟨none, some [("c1", .bare "f1"), ("c2", .structured "f1" "Two" 5)]⟩).store.assignments
      = [("c1", .bare "f1"), ("c2", .structured "f1" "Two" 5)] ∧
    keys (removeChatFromFolder .up true "c1"
        ⟨none, some [("c1", .bare "f1"), ("c2", .structured "f1" "Two" 5)]⟩).store.assignments
      = ["c2"] :=
  ⟨by decide,
    (unassign_removes_key ⟨none, some [("c1", .bare "f1"), ("c2", .structured "f1" "Two" 5)]⟩
      "c9" "" 0).2.2.2.1 (by decide),
    (unassign_removes_key ⟨none, some [("c1", .bare "f1"), ("c2", .structured "f1" "Two" 5)]⟩
      "c1" "" 0).2.2.2.2.2.2.1.trans (by decide)⟩


/-! ## Uniqueness of folder names -/

theorem deleteFolder_up_folders (s : Store) (folderId : String) :
    (deleteFolder .up true folderId s).store.folders
      = s.folders.filter (fun f => f.id != folderId) := by
  simp [deleteFolder, StoreAvail.up, Store.folders]

theorem assignChatToFolder_up_folders (s : Store) (chatId folderId chatName : String)
    (now : Nat) :
    (assignChatToFolder .up chatId folderId chatName now s).store.folders = s.folders := by
  simp [assignChatToFolder, StoreAvail.up, Store.folders]

theorem createFolder_up_cases (js : StringOps) (input : String)
    (nowId : Nat) (rand : String) (nowCreated : Nat) (s : Store) :
    (createFolder js .up input nowId rand nowCreated s).store = s ∨
    (js.trim input ≠ "" ∧
      (∀ f ∈ s.folders, js.toLowerCase f.name ≠ js.toLowerCase (js.trim input)) ∧
      (createFolder js .up input nowId rand nowCreated s).store.folders
        = s.folders ++ [⟨generateId nowId rand, js.trim input, nowCreated⟩]) := by
  by_cases hempty : js.trim input = ""
  · left; simp [createFolder, hempty]
  · by_cases hfresh : ∀ f ∈ s.folders, js.toLowerCase f.name ≠ js.toLowerCase (js.trim input)
    · right
      refine ⟨hempty, hfresh, ?_⟩
      rw [createFolder_fresh_run js input nowId rand nowCreated s hempty hfresh]
      rfl
    · left
      have hex : ∃ x ∈ s.chat_folders.getD [],
          js.toLowerCase x.name = js.toLowerCase (js.trim input) := by
        simpa [Store.folders] using hfresh
      simp [createFolder, hempty, StoreAvail.up, Store.folders, hex]

theorem reachable_folder_invariant (js : StringOps) (s : Store) (hr : Reachable js s) :
    NamesDistinct js s ∧ ∀ f ∈ s.folders, f.name ≠ "" ∧ ∃ x, f.name = js.trim x := by
  induction hr with
  | empty => exact ⟨List.Pairwise.nil, by simp [Store.empty, Store.folders]⟩
  | @step s t _ hstep ih =>
    cases hstep with
    | create input nowId rand nowCreated =>
      rcases createFolder_up_cases js input nowId rand nowCreated s with h | ⟨hne, hfresh, hf⟩
      · rw [h]; exact ih
      · unfold NamesDistinct
        rw [hf]
        constructor
        · rw [List.pairwise_append]
          refine ⟨ih.1, List.pairwise_singleton _ _, ?_⟩
          intro a ha b hb
          simp only [List.mem_singleton] at hb
          subst hb
          exact hfresh a ha
        · intro f hmem
          simp only [List.mem_append, List.mem_singleton] at hmem
          rcases hmem with hmem | hmem
          · exact ih.2 f hmem
          · subst hmem; exact ⟨hne, input, rfl⟩
    | delete folderId =>
      unfold NamesDistinct
      rw [deleteFolder_up_folders]
      exact ⟨List.Pairwise.filter _ ih.1, fun f hmem => ih.2 f (List.mem_filter.1 hmem).1⟩
    | assign chatId folderId chatName now hlive =>
      unfold NamesDistinct
      rw [assignChatToFolder_up_folders]
      exact ih
    | unassign chatId =>
      unfold NamesDistinct
      rw [removeChatFromFolder_run]
      exact ih

theorem createFolder_up_assignments (js : StringOps) (input : String)
    (nowId : Nat) (rand : String) (nowCreated : Nat) (s : Store) :
    (createFolder js .up input nowId rand nowCreated s).store.assignments = s.assignments := by
  by_cases hempty : js.trim input = ""
  · simp [createFolder, hempty]
  · by_cases hany : s.folders.any
        (fun f => js.toLowerCase f.name == js.toLowerCase (js.trim input)) = true
    · simp only [createFolder, hempty, StoreAvail.up, hany]
      simp
    · simp only [createFolder, hempty, StoreAvail.up, hany]
      simp [Store.assignments]

theorem pruneAssignments_eq_setProperty_loop (m : Assignments) (folderId : String)
    (hproto : "__proto__" ∉ keys m) :
    pruneAssignments m folderId
      = m.foldl (fun updated entry =>
          if !strictEq entry.2 folderId then setProperty updated entry.1 entry.2 else updated)
        [] := by
  unfold pruneAssignments
  generalize ([] : Assignments) = acc
  induction m generalizing acc with
  | nil => rfl
  | cons e rest ih =>
    simp only [keys, List.map_cons, List.mem_cons, not_or] at hproto
    have hk : e.1 ≠ "__proto__" := fun h => hproto.1 h.symm
    simp only [List.foldl_cons, setProperty_of_ne _ e.1 e.2 hk]
    exact ih (by simpa [keys] using hproto.2) _

theorem reachable_assignments_invariant (js : StringOps) (s : Store) (hr : Reachable js s) :
    WellFormed s.assignments ∧ "__proto__" ∉ keys s.assignments := by
  induction hr with
  | empty => exact ⟨List.nodup_nil, by simp [Store.empty, Store.assignments, keys]⟩
  | @step s t _ hstep ih =>
    cases hstep with
    | create input nowId rand nowCreated =>
      rw [createFolder_up_assignments]
      exact ih
    | delete folderId =>
      rw [deleteFolder_up_store s folderId ih.1]
      show WellFormed (s.assignments.filter _) ∧ "__proto__" ∉ keys (s.assignments.filter _)
      exact ⟨(keys_sublist_filter _ _).nodup ih.1,
        fun h => ih.2 ((keys_sublist_filter _ _).subset h)⟩
    | assign chatId folderId chatName now hlive =>
      by_cases hf : folderId = ""
      · subst hf
        rw [assignChatToFolder_empty_folder_run]
        show WellFormed (deleteProperty s.assignments chatId) ∧
          "__proto__" ∉ keys (deleteProperty s.assignments chatId)
        exact ⟨wellFormed_deleteProperty _ _ ih.1,
          fun h => ih.2 ((keys_sublist_filter _ _).subset h)⟩
      · rw [assignChatToFolder_run s chatId folderId chatName now hf]
        exact ⟨wellFormed_setProperty _ _ _ ih.1, proto_not_mem_keys_setProperty _ _ _ ih.2⟩
    | unassign chatId =>
      rw [removeChatFromFolder_run]
      show WellFormed (deleteProperty s.assignments chatId) ∧
        "__proto__" ∉ keys (deleteProperty s.assignments chatId)
      exact ⟨wellFormed_deleteProperty _ _ ih.1,
        fun h => ih.2 ((keys_sublist_filter _ _).subset h)⟩

theorem asciiLower_eq_empty (x : String) (h : asciiLower x = asciiLower "") : x = "" := by
  have hd := congrArg String.data h
  simp only [asciiLower] at hd
  have hx : x.data = [] := by simpa using hd
  exact String.ext hx

/-- C4: on every store reached from the empty store by the operations of the
extension, for every input whose trimmed form equals, after lower-casing, the
lower-cased name of a stored folder, `createFolder` ends in the duplicate alert
after its read of the folder key and issues no `set`: the store, and with it
the folder sequence, is the one before the call.  The host `toLowerCase` is
taken to give the lower-cased empty string for the empty string only. -/
theorem createFolder_duplicate_rejected (js : StringOps) (input : String)
    (nowId : Nat) (rand : String) (nowCreated : Nat) (s : Store)
    (hr : Reachable js s)
    (hlower : ∀ x, js.toLowerCase x = js.toLowerCase "" → x = "")
    (hdup : ∃ f ∈ s.folders, js.toLowerCase f.name = js.toLowerCase (js.trim input)) :
    createFolder js .up input nowId rand nowCreated s
      = ⟨.duplicateAlert, s, [.get [FOLDERS_KEY]]⟩ ∧
    (createFolder js .up input nowId rand nowCreated s).outcome = .duplicateAlert ∧
    (createFolder js .up input nowId rand nowCreated s).store = s ∧
    (createFolder js .up input nowId rand nowCreated s).store.folders = s.folders ∧
    ∀ ks, StoreCall.set ks ∉ (createFolder js .up input nowId rand nowCreated s).calls := by
  have hne : js.trim input ≠ "" := by
    intro hempty
    obtain ⟨f, hf, he⟩ := hdup
    rw [hempty] at he
    exact ((reachable_folder_invariant js s hr).2 f hf).1 (hlower f.name he)
  rw [createFolder_duplicate_run js input nowId rand nowCreated s hne hdup]
  exact ⟨rfl, rfl, rfl, rfl, by simp⟩

/-- Witness for C4: `Work` was created on the empty store and the input is
`work` with a leading blank. -/
theorem createFolder_duplicate_rejected_witness :
    (∃ f ∈ (createFolder asciiOps .up "Work" 1700000000000 "k3x9q2m1z" 1700000000000
        Store.empty).store.folders,
      asciiOps.toLowerCase f.name = asciiOps.toLowerCase (asciiOps.trim " work")) ∧
    createFolder asciiOps .up " work" 1700000000020 "p0o9i8u7y" 1700000000020
        (createFolder asciiOps .up "Work" 1700000000000 "k3x9q2m1z" 1700000000000
          Store.empty).store
      = ⟨.duplicateAlert,
          (createFolder asciiOps .up "Work" 1700000000000 "k3x9q2m1z" 1700000000000
            Store.empty).store,
          [.get [FOLDERS_KEY]]⟩ :=
  ⟨by decide,
    (createFolder_duplicate_rejected asciiOps " work" 1700000000020 "p0o9i8u7y" 1700000000020 _
      (Reachable.step Reachable.empty
        (Step.create Store.empty "Work" 1700000000000 "k3x9q2m1z" 1700000000000))
      asciiLower_eq_empty (by decide)).1⟩

theorem dropWhile_rdropWhile_dropWhile (p : Char → Bool) (l : List Char) :
    List.dropWhile p (List.rdropWhile p (List.dropWhile p l))
      = List.rdropWhile p (List.dropWhile p l) := by
  have hpre := List.rdropWhile_prefix p (l := List.dropWhile p l)
  cases hr : List.rdropWhile p (List.dropWhile p l) with
  | nil => rfl
  | cons b u =>
    rw [hr] at hpre
    obtain ⟨t, ht⟩ := hpre
    have hhead := List.head_dropWhile_not p l (by rw [← ht]; simp)
    have hb : p b = false := by
      simpa [← ht] using hhead
    simp [List.dropWhile_cons, hb]

theorem asciiTrim_idempotent (x : String) : asciiTrim (asciiTrim x) = asciiTrim x := by
  have h := dropWhile_rdropWhile_dropWhile Char.isWhitespace x.data
  simp only [List.rdropWhile] at h
  simp only [asciiTrim]
  rw [h, List.reverse_reverse, List.dropWhile_idempotent]

/-- C13: in every state reached from the empty store by folder creations and
confirmed folder deletions (assignments and removals of chats may be mixed in,
they do not touch the folders) no two folders have names that are equal after
lower-casing; and, the host `trim` leaving a trimmed string as it is, after the
deletion of a stored folder a creation with that folder's name completes and
appends a folder of that name. -/
theorem folder_names_unique (js : StringOps) (s : Store) (hr : Reachable js s) :
    NamesDistinct js s ∧
    ((∀ x, js.trim (js.trim x) = js.trim x) →
      ∀ f ∈ s.folders, ∀ (nowId : Nat) (rand : String) (nowCreated : Nat),
        (createFolder js .up f.name nowId rand nowCreated
            (deleteFolder .up true f.id s).store).outcome = .completed ∧
        (createFolder js .up f.name nowId rand nowCreated
            (deleteFolder .up true f.id s).store).store.folders
          = s.folders.filter (fun g => g.id != f.id)
              ++ [⟨generateId nowId rand, f.name, nowCreated⟩]) := by
  obtain ⟨hdist, hnames⟩ := reachable_folder_invariant js s hr
  refine ⟨hdist, ?_⟩
  intro hidem f hf nowId rand nowCreated
  obtain ⟨hne, x, hx⟩ := hnames f hf
  have htrim : js.trim f.name = f.name := by rw [hx, hidem]
  have hsymm : Symmetric (fun a b : Folder => js.toLowerCase a.name ≠ js.toLowerCase b.name) :=
    fun _ _ h => fun e => h e.symm
  have hfresh : ∀ g ∈ (deleteFolder .up true f.id s).store.folders,
      js.toLowerCase g.name ≠ js.toLowerCase (js.trim f.name) := by
    intro g hg
    rw [deleteFolder_up_folders] at hg
    obtain ⟨hgmem, hgid⟩ := List.mem_filter.1 hg
    have hgf : g ≠ f := fun e => by simp [e] at hgid
    rw [htrim]
    exact List.Pairwise.forall hsymm hdist hgmem hf hgf
  have hrun := createFolder_fresh_run js f.name nowId rand nowCreated
    (deleteFolder .up true f.id s).store (by rw [htrim]; exact hne) hfresh
  rw [hrun, htrim, deleteFolder_up_folders]
  exact ⟨rfl, rfl⟩

/-- Witness for C13: the state reached by creating `Work` and then `Home`;
after `Work` is deleted a folder named `Work` is created again. -/
theorem folder_names_unique_witness :
    NamesDistinct asciiOps
      (createFolder asciiOps .up "Home" 1700000000007 "k3x9q2m1z" 1700000000007
        (createFolder asciiOps .up "Work" 1700000000000 "k3x9q2m1z" 1700000000000
          Store.empty).store).store ∧
    (createFolder asciiOps .up "Work" 1700000000020 "p0o9i8u7y" 1700000000020
        (deleteFolder .up true "folder_1700000000000_k3x9q2m1z"
          (createFolder asciiOps .up "Home" 1700000000007 "k3x9q2m1z" 1700000000007
            (createFolder asciiOps .up "Work" 1700000000000 "k3x9q2m1z" 1700000000000
              Store.empty).store).store).store).outcome = .completed :=
  have h := folder_names_unique asciiOps _
    (Reachable.step
      (Reachable.step Reachable.empty
        (Step.create Store.empty "Work" 1700000000000 "k3x9q2m1z" 1700000000000))
      (Step.create _ "Home" 1700000000007 "k3x9q2m1z" 1700000000007))
  ⟨h.1,
    (h.2 asciiTrim_idempotent ⟨"folder_1700000000000_k3x9q2m1z", "Work", 1700000000000⟩
      (by decide) 1700000000020 "p0o9i8u7y" 1700000000020).1⟩


/-! ## Store failures -/

/-- C14, counterexample: `createFolder` and `deleteFolder` run against a store
whose `get` is rejected; both end in the failure alert of their `catch` block
and not in a rejected promise. -/
theorem popup_store_failure_caught :
    (createFolder asciiOps ⟨false, true⟩ "Work" 1700000000000 "k3x9q2m1z" 1700000000000
        ⟨some [⟨"f1", "Home", 10⟩], none⟩).outcome = .failureAlert ∧
    (createFolder asciiOps ⟨false, true⟩ "Work" 1700000000000 "k3x9q2m1z" 1700000000000
        ⟨some [⟨"f1", "Home", 10⟩], none⟩).outcome ≠ .rejected ∧
    (deleteFolder ⟨false, true⟩ true "f1" ⟨some [⟨"f1", "Home", 10⟩], none⟩).outcome
      = .failureAlert ∧
    (deleteFolder ⟨false, true⟩ true "f1" ⟨some [⟨"f1", "Home", 10⟩], none⟩).outcome
      ≠ .rejected := by
  decide

/-- C14, amended: when the `get` or the `set` of the store is rejected,
`assignChatToFolder` and a confirmed `removeChatFromFolder` end with a rejected
promise, a confirmed `deleteFolder` and a `createFolder` that reaches the
rejected call end in the failure alert of their `catch` block (the failure is
not handed to the caller); in all four the store afterwards is the store
before, and the rejected call is the last store call. -/
theorem store_failure_handling (js : StringOps) (avail : StoreAvail) (s : Store)
    (input : String) (nowId : Nat) (rand : String) (nowCreated : Nat)
    (folderId chatId assignedFolder chatName : String) (now : Nat)
    (hfail : avail.getOk = false ∨ avail.setOk = false) :
    ((assignChatToFolder avail chatId assignedFolder chatName now s).outcome = .rejected ∧
      (assignChatToFolder avail chatId assignedFolder chatName now s).store = s ∧
      (assignChatToFolder avail chatId assignedFolder chatName now s).calls
        = if avail.getOk then [.get [CHAT_ASSIGNMENTS_KEY], .set [CHAT_ASSIGNMENTS_KEY]]
          else [.get [CHAT_ASSIGNMENTS_KEY]]) ∧
    ((removeChatFromFolder avail true chatId s).outcome = .rejected ∧
      (removeChatFromFolder avail true chatId s).store = s ∧
      (removeChatFromFolder avail true chatId s).calls
        = if avail.getOk then [.get [CHAT_ASSIGNMENTS_KEY], .set [CHAT_ASSIGNMENTS_KEY]]
          else [.get [CHAT_ASSIGNMENTS_KEY]]) ∧
    ((deleteFolder avail true folderId s).outcome = .failureAlert ∧
      (deleteFolder avail true folderId s).store = s ∧
      (deleteFolder avail true folderId s).calls
        = if avail.getOk then
            [.get [FOLDERS_KEY, CHAT_ASSIGNMENTS_KEY], .set [FOLDERS_KEY, CHAT_ASSIGNMENTS_KEY]]
          else [.get [FOLDERS_KEY, CHAT_ASSIGNMENTS_KEY]]) ∧
    ((createFolder js avail input nowId rand nowCreated s).store = s ∧
      (createFolder js avail input nowId rand nowCreated s).outcome ≠ .rejected ∧
      (createFolder js avail input nowId rand nowCreated s).outcome ≠ .completed ∧
      (js.trim input ≠ "" →
        (avail.getOk = false ∨
          ∀ f ∈ s.folders, js.toLowerCase f.name ≠ js.toLowerCase (js.trim input)) →
        (createFolder js avail input nowId rand nowCreated s).outcome = .failureAlert ∧
        (createFolder js avail input nowId rand nowCreated s).calls
          = if avail.getOk then [.get [FOLDERS_KEY], .set [FOLDERS_KEY]]
            else [.get [FOLDERS_KEY]])) := by
  obtain ⟨getOk, setOk⟩ := avail
  have hset : getOk = true → setOk = false := by
    intro hg
    rcases hfail with h | h
    · simp only at h; rw [hg] at h; exact absurd h (by decide)
    · exact h
  cases getOk with
  | false =>
    refine ⟨?_, ?_, ?_, ?_⟩
    · simp [assignChatToFolder]
    · simp [removeChatFromFolder]
    · simp [deleteFolder]
    · by_cases hempty : js.trim input = ""
      · simp [createFolder, hempty]
      · simp [createFolder, hempty]
  | true =>
    have hs : setOk = false := hset rfl
    subst hs
    refine ⟨?_, ?_, ?_, ?_⟩
    · simp [assignChatToFolder]
    · simp [removeChatFromFolder]
    · simp [deleteFolder]
    · by_cases hempty : js.trim input = ""
      · simp [createFolder, hempty]
      · by_cases hex : ∃ x ∈ s.chat_folders.getD [],
            js.toLowerCase x.name = js.toLowerCase (js.trim input)
        · simp only [createFolder, hempty, Store.folders]
          simp [hex]
        · simp only [createFolder, hempty, Store.folders]
          simp [hex]

/-- Witness for C14: the `set` of the store is rejected while chat `c1` is
saved to folder `f1`. -/
theorem store_failure_handling_witness :
    (assignChatToFolder ⟨true, false⟩ "c1" "f1" "My Chat" 5
        ⟨some [⟨"f1", "Home", 10⟩], none⟩).outcome = .rejected ∧
    (assignChatToFolder ⟨true, false⟩ "c1" "f1" "My Chat" 5
        ⟨some [⟨"f1", "Home", 10⟩], none⟩).store = ⟨some [⟨"f1", "Home", 10⟩], none⟩ :=
  ⟨(store_failure_handling asciiOps ⟨true, false⟩ ⟨some [⟨"f1", "Home", 10⟩], none⟩
      "Work" 0 "" 0 "f1" "c1" "f1" "My Chat" 5 (by decide)).1.1,
    (store_failure_handling asciiOps ⟨true, false⟩ ⟨some [⟨"f1", "Home", 10⟩], none⟩
      "Work" 0 "" 0 "f1" "c1" "f1" "My Chat" 5 (by decide)).1.2.1⟩

/-! ## Agreement of the views and identity of manually named chats -/

/-- C15 (the code departs from the claim): for a mapping with one structured
assignment to folder `f1`, the popup counts no chat in `f1` while the panel
and the sidebar count one. -/
theorem popup_count_differs_from_panel :
    popupChatCount [("c1", .structured "f1" "My Chat" 20)] ⟨"f1", "Work", 10⟩ = 0 ∧
    panelChatCount [("c1", .structured "f1" "My Chat" 20)] ⟨"f1", "Work", 10⟩ = 1 ∧
    sidebarChatCount [("c1", .structured "f1" "My Chat" 20)] ⟨"f1", "Work", 10⟩ = 1 := by
  decide

/-- C16 (the code departs from the claim): the two chat names
`Project planning A` and `Project planning B` differ, `btoa` accepts both, and
the panel derives the same chat id for both; saving the second chat to `f2`
after the first was saved to `f1` leaves one assignment, that of the second. -/
theorem manual_chat_id_collision :
    asciiOps.trim "Project planning A" ≠ asciiOps.trim "Project planning B" ∧
    btoa "Project planning A" = some "UHJvamVjdCBwbGFubmluZyBB" ∧
    btoa "Project planning B" = some "UHJvamVjdCBwbGFubmluZyBC" ∧
    manualChatId "UHJvamVjdCBwbGFubmluZyBB" = "manual_UHJvamVjdCBwbGFubmlu" ∧
    manualChatId "UHJvamVjdCBwbGFubmluZyBC" = "manual_UHJvamVjdCBwbGFubmlu" ∧
    (saveToFolder asciiOps .up "Project planning A" "f1" 5
        ⟨some [⟨"f1", "Work", 1⟩, ⟨"f2", "Home", 2⟩], none⟩).store.assignments
      = [("manual_UHJvamVjdCBwbGFubmlu", .structured "f1" "Project planning A" 5)] ∧
    (saveToFolder asciiOps .up "Project planning B" "f2" 6
        (saveToFolder asciiOps .up "Project planning A" "f1" 5
          ⟨some [⟨"f1", "Work", 1⟩, ⟨"f2", "Home", 2⟩], none⟩).store).store.assignments
      = [("manual_UHJvamVjdCBwbGFubmlu", .structured "f2" "Project planning B" 6)] := by
  decide

end ChatOrganizer
